import Mathlib

/-!
Shallow embedding of the clime message-passing library (src/clime.hpp) for the
purpose of checking the natural-language specification against the code.

Payloads (std::shared_ptr<MessageType>) are modelled by a numeric identity,
since the bus never inspects them.  The per-type queue
std::list<std::pair<std::shared_ptr<MessageType>, int>> becomes a List of
Entry.  The running_ flag is a Bool.  Blocking calls are modelled small-step:
a call either returns (with its value and the successor state) or reaches the
condition-variable wait.
-/

namespace Clime

/-- A queue entry of messages_: std::pair<std::shared_ptr<MessageType>, int>
(payload pointer modelled by its identity, plus the target id; -1 is the
wildcard). -/
structure Entry where
  payload : Nat
  target : Int
deriving DecidableEq

/-- State of a message_manager restricted to one message type: the queue for
that type out of messages_, and the bus-wide running_ flag. -/
structure BusState where
  queue : List Entry
  running : Bool
deriving DecidableEq

/-- The message_selector lambda inside receive_message: an entry matches when
its target is the wildcard -1 or equals the requested target id. -/
def message_selector (request_target_id : Int) (m : Entry) : Bool :=
  m.target == -1 || m.target == request_target_id

/-- The condition-variable wait predicate inside send_message:
!running_ || max_queued_messages == 0 || queue size < max_queued_messages. -/
def sendCanProceed (running : Bool) (max_queued_messages : Nat) (queue_len : Nat) : Bool :=
  !running || max_queued_messages == 0 || decide (queue_len < max_queued_messages)

/-- Effect of send_message once its wait predicate holds: emplace_back of the
(payload, target_id) pair at the end of the type's queue.  The append is
unconditional in the source: it happens whether or not running_ is still
true. -/
def send_message (s : BusState) (msg : Nat) (target_id : Int) : BusState :=
  { s with queue := s.queue ++ [⟨msg, target_id⟩] }

/-- The scan-and-erase step of receive_message: find_if over the queue with
message_selector, returning the payload of the first match and the queue with
that entry erased. -/
def removeFirst (p : Entry → Bool) : List Entry → Option (Nat × List Entry)
  | [] => none
  | e :: rest =>
    if p e then some (e.payload, rest)
    else
      match removeFirst p rest with
      | some (x, rest2) => some (x, e :: rest2)
      | none => none

/-- One pass of the while(true) loop in receive_message: some (result, state)
when the call returns (first matching entry erased and returned, or no match
and the call gives up because wait_for_message is false or running_ is
false); none when the code reaches cv_.wait(lock), i.e. the call blocks. -/
def receive_step (s : BusState) (wait_for_message : Bool) (request_target_id : Int) :
    Option (Option Nat × BusState) :=
  match removeFirst (message_selector request_target_id) s.queue with
  | some (x, rest) => some (some x, { s with queue := rest })
  | none => if wait_for_message && s.running then none else some (none, s)

/-- The value a receive call hands to its caller, given how the call
returned. -/
def received (r : Option (Option Nat × BusState)) : Option Nat :=
  match r with
  | some (x, _) => x
  | none => none

/-- message_manager::dispose(): clear_all_loggers (loggers are not modelled:
no claim mentions them), clear_all_messages (all queues drained), then
running_ = false under the lock, one cv_.notify_one(), and release of the
handler tuple. -/
def dispose (_s : BusState) : BusState :=
  { queue := [], running := false }

/-- The while-loop guard of message_handler::run: the loop continues exactly
while the owning manager's running_ flag is true. -/
def handler_loop_continues (running : Bool) : Bool :=
  running

/-- State of a message_manager instantiated with two message types (the
general tuple messages_ specialised to two components), as needed for claims
about cross-type effects: two queues and the single bus-wide running_
flag shared by all types. -/
structure Bus2State where
  queue0 : List Entry
  queue1 : List Entry
  running : Bool
deriving DecidableEq

/-- Effect of ~message_handler on the owning manager (the handler is
templated on one message type, here type 0): it locks mutex_messages_, sets
msg_manager_.running_ = false, notifies the condition variable once and joins
the thread.  The queues are untouched. -/
def handler_dtor2 (s : Bus2State) : Bus2State :=
  { s with running := false }

/-- dispose() on the two-type manager: all queues drained, running_ =
false. -/
def dispose2 (_s : Bus2State) : Bus2State :=
  { queue0 := [], queue1 := [], running := false }

/-- Effect of message_manager::clear_handlers<MessageType>() when the handler
list for that type holds k handlers: message_handler_list.clear() destroys
each handler in turn, and every ~message_handler sets running_ = false. -/
def clear_handlers_effect (k : Nat) (s : Bus2State) : Bus2State :=
  match k with
  | 0 => s
  | Nat.succ m => clear_handlers_effect m (handler_dtor2 s)

/-- receive_message for the second message type of the two-type manager,
small-step as in receive_step: some when the call returns, none when it
blocks in cv_.wait. -/
def receive_step1 (s : Bus2State) (wait_for_message : Bool) (request_target_id : Int) :
    Option (Option Nat × Bus2State) :=
  match removeFirst (message_selector request_target_id) s.queue1 with
  | some (x, rest) => some (some x, { s with queue1 := rest })
  | none => if wait_for_message && s.running then none else some (none, s)

/-- Bookkeeping for the threads blocked on the shared condition variable cv_
after dispose: how many threads are blocked in cv_.wait (senders waiting for
capacity or receivers waiting for a message), and how many notify_one signals
are pending. -/
structure WaitState where
  blocked : Nat
  pending_notifies : Nat
deriving DecidableEq

/-- cv_.notify_one(): one more pending wakeup signal. -/
def notify_one (w : WaitState) : WaitState :=
  { w with pending_notifies := w.pending_notifies + 1 }

/-- One wake-relay step after running_ has become false: a pending notify
wakes one blocked thread; because running_ is false its wait predicate holds
(a sender proceeds past cv_.wait, a receiver leaves its loop with an empty
result), and on its way out the thread itself calls cv_.notify_one() — the
trailing notify in send_message and receive_message — passing the wakeup
on. -/
def wake_step (w : WaitState) : WaitState :=
  if 0 < w.blocked && 0 < w.pending_notifies then
    { blocked := w.blocked - 1, pending_notifies := w.pending_notifies - 1 + 1 }
  else w

/-- Iterated wake-relay steps. -/
def wake_steps : Nat → WaitState → WaitState
  | 0, w => w
  | Nat.succ n, w => wake_steps n (wake_step w)

/-- State of a clime::future: the stored result_ pointer (modelled by the
numeric identity of the stored value, none while unset). -/
structure FutureState where
  result : Option Nat
deriving DecidableEq

/-- Body of the Result handler registered by future::operator=(const
AsyncOp&): under mtx_, result_ is assigned only if it is not yet
initialized. -/
def future_result_handler (s : FutureState) (r : Nat) : FutureState :=
  if s.result = none then { result := some r } else s

/-- future::operator=(const Result&): under mtx_, result_ is assigned
unconditionally to a fresh copy of the given value. -/
def future_assign (_s : FutureState) (r : Nat) : FutureState :=
  { result := some r }

/-- The single pass over future_pool_ in the delayed send_message overload,
transcribed from the for loop: i is the index of the slot under inspection,
fut the index the local pointer (future) refers to, last the current value of
last_ready_future.  A slot is true when wait_for(0) reports
future_status::ready. -/
def scan_loop : List Bool → Nat → Option Nat → Nat → Option Nat × Nat
  | [], _, fut, last => (fut, last)
  | b :: rest, i, fut, last =>
    if b then
      match fut with
      | none => scan_loop rest (i + 1) (some i) last
      | some f => scan_loop rest (i + 1) (some f) i
    else
      scan_loop rest (i + 1) fut last

/-- The pool transformation performed by one call of the delayed
send_message overload: scan the pool once, future_pool_.resize
(last_ready_future), then either reassign the first ready slot (the new
task starts pending, hence false) or emplace_back a fresh slot for it. -/
def send_message_delayed (pool : List Bool) : List Bool :=
  let r := scan_loop pool 0 none pool.length
  let pool2 := pool.take r.2
  match r.1 with
  | some f => pool2.set f false
  | none => pool2 ++ [false]

/-- Number of still-pending slots of the pool. -/
def pendingCount (pool : List Bool) : Nat :=
  pool.count false

/-- Index of the first completed slot of the pool, in the words of the spec
(for comparison with what the scan computes). -/
def firstReadyIdx : List Bool → Option Nat
  | [] => none
  | b :: rest => if b then some 0 else (firstReadyIdx rest).map (fun j => j + 1)

/-- Index of the last completed slot of the pool, in the words of the spec
(for comparison with what the scan computes). -/
def lastReadyIdx : List Bool → Option Nat
  | [] => none
  | b :: rest =>
    match lastReadyIdx rest with
    | some j => some (j + 1)
    | none => if b then some 0 else none

/-- What the dispatch part of one iteration of message_handler::run does:
nothing, or it throws a std::exception carrying a message, or it throws
something that is not a std::exception. -/
inductive DispatchOutcome where
  | ok
  | throwStd (msg : String)
  | throwUnknown
deriving DecidableEq

/-- The catch clauses of message_handler::run: the argument handed to
on_exception_, if it is invoked at all.  Both catch clauses guard the call
with on_exception_ && msg_manager_.running_; the catch-all clause passes the
pre-built runtime_error unknown_exception whose what() is "unknown
exception". -/
def iteration_report (d : DispatchOutcome) (has_on_exception running_at_catch : Bool) :
    Option String :=
  match d with
  | .ok => none
  | .throwStd m => if has_on_exception && running_at_catch then some m else none
  | .throwUnknown =>
      if has_on_exception && running_at_catch then some "unknown exception" else none

/-- Inputs of one iteration of the while loop of message_handler::run:
the value of running_ at the loop head, what the guarded dispatch does, and
the value of running_ when a throw reaches the catch clause. -/
structure IterInput where
  running_at_head : Bool
  dispatch : DispatchOutcome
  running_at_catch : Bool
deriving DecidableEq

/-- The while loop of message_handler::run over a trace of iterations,
collecting what each iteration reports to on_exception_.  The loop exits
only through its guard running_; a caught exception never leaves the try
block, so it never ends the loop. -/
def run_loop : List IterInput → Bool → List (Option String)
  | [], _ => []
  | it :: rest, hasExc =>
    if it.running_at_head then
      iteration_report it.dispatch hasExc it.running_at_catch :: run_loop rest hasExc
    else []

/-! Helper lemmas, shared by the claim theorems. -/

/-- removeFirst returns a queue one entry shorter. -/
theorem removeFirst_length (p : Entry → Bool) :
    ∀ (q : List Entry) (x : Nat) (q2 : List Entry),
      removeFirst p q = some (x, q2) → q2.length + 1 = q.length := by
  intro q
  induction q with
  | nil => intro x q2 h; simp [removeFirst] at h
  | cons e rest ih =>
    intro x q2 h
    by_cases hp : p e = true
    · simp [removeFirst, hp] at h
      simp [← h.2]
    · simp [removeFirst, hp] at h
      cases hrec : removeFirst p rest with
      | none => simp [hrec] at h
      | some pr =>
        simp [hrec] at h
        have := ih pr.1 pr.2 (by simp [hrec])
        simp [← h.2, List.length_cons]
        omega

/-- What removeFirst finds is the earliest matching entry (at index
findIdx p q), everything before it fails the selector, and the remaining
queue is the original with exactly that position erased — order untouched. -/
theorem removeFirst_spec (p : Entry → Bool) (d : Entry) :
    ∀ (q : List Entry) (x : Nat) (q2 : List Entry),
      removeFirst p q = some (x, q2) →
      q.findIdx p < q.length
      ∧ p (q.getD (q.findIdx p) d) = true
      ∧ x = (q.getD (q.findIdx p) d).payload
      ∧ (∀ j, j < q.findIdx p → p (q.getD j d) = false)
      ∧ q2 = q.take (q.findIdx p) ++ q.drop (q.findIdx p + 1) := by
  intro q
  induction q with
  | nil => intro x q2 h; simp [removeFirst] at h
  | cons e rest ih =>
    intro x q2 h
    by_cases hp : p e = true
    · simp [removeFirst, hp] at h
      obtain ⟨hx, hq2⟩ := h
      subst hx
      subst hq2
      have hf : (e :: rest).findIdx p = 0 := by simp [List.findIdx_cons, hp]
      refine ⟨by simp [hf], by simpa [hf] using hp, by simp [hf], ?_, by simp [hf]⟩
      intro j hj
      rw [hf] at hj
      omega
    · have hfind : (e :: rest).findIdx p = rest.findIdx p + 1 := by
        simp [List.findIdx_cons, hp]
      simp [removeFirst, hp] at h
      cases hrec : removeFirst p rest with
      | none => simp [hrec] at h
      | some pr =>
        simp [hrec] at h
        obtain ⟨hi, hsel, hx, hbefore, hq2⟩ := ih pr.1 pr.2 (by simp [hrec])
        refine ⟨?_, ?_, ?_, ?_, ?_⟩
        · rw [hfind]
          simp only [List.length_cons]
          omega
        · simpa [hfind] using hsel
        · simpa [hfind, ← h.1] using hx
        · intro j hj
          rw [hfind] at hj
          cases j with
          | zero => simpa using hp
          | succ k =>
            have : k < rest.findIdx p := by omega
            simpa using hbefore k this
        · rw [hfind, ← h.2, hq2]
          simp [List.take_succ_cons, List.drop_succ_cons]

/-- The payload removeFirst returns is a payload of the queue. -/
theorem removeFirst_mem (p : Entry → Bool) :
    ∀ (q : List Entry) (x : Nat) (q2 : List Entry),
      removeFirst p q = some (x, q2) → x ∈ q.map Entry.payload := by
  intro q
  induction q with
  | nil => intro x q2 h; simp [removeFirst] at h
  | cons e rest ih =>
    intro x q2 h
    by_cases hp : p e = true
    · simp [removeFirst, hp] at h
      simp [← h.1]
    · simp [removeFirst, hp] at h
      cases hrec : removeFirst p rest with
      | none => simp [hrec] at h
      | some pr =>
        simp [hrec] at h
        have := ih pr.1 pr.2 (by simp [hrec])
        simp [← h.1]
        right
        simpa using this

/-- removeFirst erases exactly one occurrence of the returned payload. -/
theorem removeFirst_count (p : Entry → Bool) :
    ∀ (q : List Entry) (x : Nat) (q2 : List Entry),
      removeFirst p q = some (x, q2) →
      (q2.map Entry.payload).count x + 1 = (q.map Entry.payload).count x := by
  intro q
  induction q with
  | nil => intro x q2 h; simp [removeFirst] at h
  | cons e rest ih =>
    intro x q2 h
    by_cases hp : p e = true
    · simp [removeFirst, hp] at h
      simp [← h.1, ← h.2, List.count_cons]
    · simp [removeFirst, hp] at h
      cases hrec : removeFirst p rest with
      | none => simp [hrec] at h
      | some pr =>
        simp [hrec] at h
        obtain ⟨hx, hq2⟩ := h
        have hrest := ih pr.1 pr.2 (by simp [hrec])
        subst hx
        subst hq2
        simp [List.count_cons]
        split_ifs <;> omega

/-- Inverting a returning receive call that produced a message: the scan
found that message and the successor state keeps the running flag. -/
theorem receive_step_some (s : BusState) (wait : Bool) (tid : Int) (x : Nat) (s2 : BusState) :
    receive_step s wait tid = some (some x, s2) →
    removeFirst (message_selector tid) s.queue = some (x, s2.queue)
    ∧ s2.running = s.running := by
  intro h
  unfold receive_step at h
  cases hrec : removeFirst (message_selector tid) s.queue with
  | none =>
    rw [hrec] at h
    by_cases hw : (wait && s.running) = true <;> simp [hw] at h
  | some pr =>
    rw [hrec] at h
    simp at h
    obtain ⟨h1, h2⟩ := h
    refine ⟨?_, ?_⟩
    · rw [← h1, ← h2]
    · rw [← h2]

/-! The claims. -/

/-- Claim C1, counterexample.  Two entries of the same type enqueued with
target ids 1 and 2; the receive requesting target 2 does return the second
entry, but the subsequent receive with the default wildcard target id -1
returns nothing at all — the selector target == -1 || target ==
request_target_id does not match the remaining entry whose target is 1 —
instead of returning that entry as the claim states. -/
theorem C1_wildcard_receive_cex :
    receive_step (send_message (send_message ⟨[], true⟩ 1 1) 2 2) false 2
      = some (some 2, ⟨[⟨1, 1⟩], true⟩)
    ∧ received (receive_step ⟨[⟨1, 1⟩], true⟩ false (-1)) = none := by
  constructor <;> rfl

/-- Claim C1 (corrected): with two entries of the same type enqueued in
order, the first with target id 1 and the second with target id 2, a receive
requesting target id 2 removes and returns the second entry; but a
subsequent receive with the default wildcard target id -1 matches nothing
(a wildcard request only matches entries whose own target is the wildcard)
and leaves the queue unchanged; the remaining target-1 entry is returned by
a receive that requests target id 1. -/
theorem C1_targeted_delivery (a b : Nat) :
    receive_step (send_message (send_message ⟨[], true⟩ a 1) b 2) false 2
      = some (some b, ⟨[⟨a, 1⟩], true⟩)
    ∧ receive_step ⟨[⟨a, 1⟩], true⟩ false (-1) = some (none, ⟨[⟨a, 1⟩], true⟩)
    ∧ receive_step ⟨[⟨a, 1⟩], true⟩ false 1 = some (some a, ⟨[], true⟩) := by
  refine ⟨?_, ?_, ?_⟩ <;> rfl

/-- Claim C2, counterexample.  The operation completes first on a fresh
future (storing 1); a later direct assignment of 2 is not a no-op: it
overwrites the stored result, because future::operator=(const Result&)
assigns result_ unconditionally. -/
theorem C2_assign_overwrites_cex :
    future_assign (future_result_handler ⟨none⟩ 1) 2 ≠ future_result_handler ⟨none⟩ 1 := by
  decide

/-- Claim C2 (corrected): whichever write path runs, a direct value
assignment always stores its value — so if the direct assignment happens
first, the operation's later completion is discarded (the Result handler
stores only if no result is present), but if the operation completes first,
a later direct assignment still overwrites the operation's result rather
than being a no-op. -/
theorem C2_future_write (s : FutureState) (r v : Nat) :
    (future_assign s v).result = some v
    ∧ (s.result ≠ none → future_result_handler s r = s)
    ∧ (s.result = none → (future_result_handler s r).result = some r) := by
  refine ⟨rfl, ?_, ?_⟩
  · intro h
    simp [future_result_handler, h]
  · intro h
    simp [future_result_handler, h]

/-- Claim C2 witness: on a future already holding the operation result 1, a
direct assignment of 2 stores 2, and an operation completion arriving at a
future that already holds 5 changes nothing. -/
theorem C2_future_write_w :
    (future_assign ⟨some 1⟩ 2).result = some 2
    ∧ future_result_handler ⟨some 5⟩ 9 = ⟨some 5⟩
    ∧ (future_result_handler ⟨none⟩ 7).result = some 7 :=
  ⟨(C2_future_write ⟨some 1⟩ 9 2).1,
   (C2_future_write ⟨some 5⟩ 9 2).2.1 (by decide),
   (C2_future_write ⟨none⟩ 7 2).2.2 rfl⟩

/-- Claim C3, counterexample.  On a disposed bus (running_ = false) a send is
not a no-op: the entry is still appended, so the queue changes. -/
theorem C3_send_after_dispose_cex :
    (send_message (dispose ⟨[⟨9, -1⟩], true⟩) 7 (-1)).queue
      ≠ (dispose ⟨[⟨9, -1⟩], true⟩).queue := by
  decide

/-- Claim C3 (corrected): after running_ has become false, a send no longer
blocks — the wait predicate is immediately true — and it still appends its
entry to the destination queue; such post-disposal messages are accepted but
never delivered through a handler, because every handler loop guard is then
false. -/
theorem C3_send_after_dispose (s : BusState) (msg : Nat) (tid : Int) (N L : Nat) :
    s.running = false →
    sendCanProceed s.running N L = true
    ∧ (send_message s msg tid).queue = s.queue ++ [⟨msg, tid⟩]
    ∧ handler_loop_continues s.running = false := by
  intro h
  refine ⟨?_, rfl, ?_⟩ <;> simp [sendCanProceed, handler_loop_continues, h]

/-- Claim C3 witness: the corrected statement at a concrete disposed bus. -/
theorem C3_send_after_dispose_w :
    sendCanProceed (dispose ⟨[], true⟩).running 3 5 = true
    ∧ (send_message (dispose ⟨[], true⟩) 7 (-1)).queue = (dispose ⟨[], true⟩).queue ++ [⟨7, -1⟩]
    ∧ handler_loop_continues (dispose ⟨[], true⟩).running = false :=
  C3_send_after_dispose (dispose ⟨[], true⟩) 7 (-1) 3 5 rfl

/-- The wake relay empties the set of blocked threads: starting from one
pending notify, n relay steps unblock n blocked threads. -/
theorem wake_chain (n : Nat) :
    wake_steps n { blocked := n, pending_notifies := 1 } = { blocked := 0, pending_notifies := 1 } := by
  induction n with
  | zero => rfl
  | succ m ih =>
    show wake_steps m (wake_step { blocked := m + 1, pending_notifies := 1 }) = _
    have hstep : wake_step { blocked := m + 1, pending_notifies := 1 }
        = { blocked := m, pending_notifies := 1 } := by
      simp [wake_step]
    rw [hstep, ih]

/-- Claim C4: after dispose(), every blocked thread unblocks in bounded time.
dispose issues one notify_one; each of the n blocked threads, once woken,
finds its wait predicate true (running_ is false) and relays the wakeup with
its own trailing notify_one, so after n relay steps no thread is left
blocked.  A receive that was blocked returns an empty result on the disposed
(drained) bus without reaching cv_.wait again, and a blocked send's wait
predicate is true, so it stops waiting. -/
theorem C4_dispose_releases_waiters (n : Nat) (s : BusState) (wait : Bool) (tid : Int)
    (N L : Nat) :
    (wake_steps n (notify_one { blocked := n, pending_notifies := 0 })).blocked = 0
    ∧ receive_step (dispose s) wait tid = some (none, dispose s)
    ∧ sendCanProceed (dispose s).running N L = true := by
  refine ⟨?_, ?_, ?_⟩
  · have h1 : notify_one { blocked := n, pending_notifies := 0 }
        = { blocked := n, pending_notifies := 1 } := rfl
    rw [h1, wake_chain]
  · cases wait <;> rfl
  · rfl

/-- Claim C5: send with max_queued_messages = N.  With N = 0 the wait
predicate always holds (send never blocks on capacity); with N > 0 it holds
exactly when the bus is not running or the queue is shorter than N, so a
running bus with at least N queued entries blocks the sender; once admitted
the entry is appended; a successful receive removes one entry, after which a
queue that held exactly N entries is below the bound again. -/
theorem C5_backpressure (r : Bool) (N L : Nat) (s : BusState) (msg : Nat) (tid : Int)
    (wait : Bool) (rtid : Int) (x : Nat) (s2 : BusState) :
    sendCanProceed r 0 L = true
    ∧ (0 < N → (sendCanProceed r N L = true ↔ (r = false ∨ L < N)))
    ∧ (send_message s msg tid).queue = s.queue ++ [⟨msg, tid⟩]
    ∧ (0 < N → N ≤ L → sendCanProceed true N L = false)
    ∧ (0 < N → sendCanProceed r N (N - 1) = true)
    ∧ (receive_step s wait rtid = some (some x, s2) → s2.queue.length + 1 = s.queue.length) := by
  refine ⟨?_, ?_, rfl, ?_, ?_, ?_⟩
  · simp [sendCanProceed]
  · intro hN
    cases r <;> simp [sendCanProceed] <;> omega
  · intro h1 h2
    simp [sendCanProceed]
    omega
  · intro hN
    cases r <;> simp [sendCanProceed] <;> omega
  · intro h
    exact removeFirst_length _ _ _ _ (receive_step_some s wait rtid x s2 h).1

/-- Claim C5 witness: with N = 2 a running bus holding 2 entries blocks the
sender, a queue of length 1 admits it, an admitted send appends, and a
receive shortens the queue by one. -/
theorem C5_backpressure_w :
    sendCanProceed true 2 2 = false
    ∧ sendCanProceed true 2 (2 - 1) = true
    ∧ (send_message ⟨[⟨3, -1⟩, ⟨4, -1⟩], true⟩ 5 (-1)).queue
        = [⟨3, -1⟩, ⟨4, -1⟩] ++ [⟨5, -1⟩]
    ∧ (⟨[⟨4, -1⟩], true⟩ : BusState).queue.length + 1
        = (⟨[⟨3, -1⟩, ⟨4, -1⟩], true⟩ : BusState).queue.length :=
  have h := C5_backpressure true 2 2 ⟨[⟨3, -1⟩, ⟨4, -1⟩], true⟩ 5 (-1) false (-1) 3
    ⟨[⟨4, -1⟩], true⟩
  ⟨h.2.2.2.1 (by decide) (by decide), h.2.2.2.2.1 (by decide), h.2.2.1,
   h.2.2.2.2.2 (by decide)⟩

/-- Claim C7: a receive that returns a message returns the payload of the
earliest-inserted matching entry (the one at findIdx of the selector): every
entry before it fails the filter, and the remaining queue is the original
with exactly that position erased, so the relative order of all remaining
entries is preserved. -/
theorem C7_fifo_earliest_match (s : BusState) (wait : Bool) (tid : Int) (x : Nat)
    (s2 : BusState) (d : Entry) :
    receive_step s wait tid = some (some x, s2) →
    s.queue.findIdx (message_selector tid) < s.queue.length
    ∧ message_selector tid (s.queue.getD (s.queue.findIdx (message_selector tid)) d) = true
    ∧ x = (s.queue.getD (s.queue.findIdx (message_selector tid)) d).payload
    ∧ (∀ j, j < s.queue.findIdx (message_selector tid) →
        message_selector tid (s.queue.getD j d) = false)
    ∧ s2.queue = s.queue.take (s.queue.findIdx (message_selector tid))
        ++ s.queue.drop (s.queue.findIdx (message_selector tid) + 1) := by
  intro h
  exact removeFirst_spec _ d _ _ _ (receive_step_some s wait tid x s2 h).1

/-- Claim C7 witness: on the queue [(10 target 5), (20 wildcard),
(30 wildcard)] a receive requesting target 7 skips the unmatched head and
returns the earliest matching payload 20, leaving the order of the rest
untouched. -/
theorem C7_fifo_earliest_match_w :
    ([⟨10, 5⟩, ⟨20, -1⟩, ⟨30, -1⟩] : List Entry).findIdx (message_selector 7)
      < ([⟨10, 5⟩, ⟨20, -1⟩, ⟨30, -1⟩] : List Entry).length
    ∧ (20 : Nat) = (([⟨10, 5⟩, ⟨20, -1⟩, ⟨30, -1⟩] : List Entry).getD
        (([⟨10, 5⟩, ⟨20, -1⟩, ⟨30, -1⟩] : List Entry).findIdx (message_selector 7))
        ⟨0, 0⟩).payload
    ∧ ([⟨10, 5⟩, ⟨30, -1⟩] : List Entry)
        = ([⟨10, 5⟩, ⟨20, -1⟩, ⟨30, -1⟩] : List Entry).take
            (([⟨10, 5⟩, ⟨20, -1⟩, ⟨30, -1⟩] : List Entry).findIdx (message_selector 7))
          ++ ([⟨10, 5⟩, ⟨20, -1⟩, ⟨30, -1⟩] : List Entry).drop
            (([⟨10, 5⟩, ⟨20, -1⟩, ⟨30, -1⟩] : List Entry).findIdx (message_selector 7) + 1) :=
  have h := C7_fifo_earliest_match ⟨[⟨10, 5⟩, ⟨20, -1⟩, ⟨30, -1⟩], true⟩ false 7 20
    ⟨[⟨10, 5⟩, ⟨30, -1⟩], true⟩ ⟨0, 0⟩ (by decide)
  ⟨h.1, h.2.2.1, h.2.2.2.2⟩

/-- Claim C8: at-most-once delivery.  If the payloads queued for a type are
pairwise distinct and a receive call returns payload x, then x has been
erased from the queue, and no subsequent receive — whatever its
wait_for_message flag and target id — can return x again. -/
theorem C8_at_most_once (s : BusState) (wait : Bool) (tid : Int) (x : Nat) (s2 : BusState)
    (wait2 : Bool) (tid2 : Int) :
    (s.queue.map Entry.payload).Nodup →
    receive_step s wait tid = some (some x, s2) →
    received (receive_step s2 wait2 tid2) ≠ some x := by
  intro hnd h hcontra
  obtain ⟨hrem, -⟩ := receive_step_some s wait tid x s2 h
  have hcount := removeFirst_count (message_selector tid) s.queue x s2.queue hrem
  have hle : (s.queue.map Entry.payload).count x ≤ 1 :=
    List.nodup_iff_count_le_one.mp hnd x
  have hzero : (s2.queue.map Entry.payload).count x = 0 := by omega
  have hnotmem : x ∉ s2.queue.map Entry.payload := List.count_eq_zero.mp hzero
  cases h2 : receive_step s2 wait2 tid2 with
  | none => rw [h2] at hcontra; simp [received] at hcontra
  | some pr =>
    obtain ⟨y, s3⟩ := pr
    rw [h2] at hcontra
    simp [received] at hcontra
    rw [hcontra] at h2
    obtain ⟨hrem2, -⟩ := receive_step_some s2 wait2 tid2 x s3 h2
    exact hnotmem (removeFirst_mem (message_selector tid2) s2.queue x s3.queue hrem2)

/-- Claim C8 witness: after a queue of distinct payloads 1, 2 yields 1 to a
first receive, a second receive cannot yield 1 again. -/
theorem C8_at_most_once_w :
    received (receive_step ⟨[⟨2, -1⟩], true⟩ false (-1)) ≠ some 1 :=
  C8_at_most_once ⟨[⟨1, -1⟩, ⟨2, -1⟩], true⟩ false (-1) 1 ⟨[⟨2, -1⟩], true⟩ false (-1)
    (by decide) (by decide)

/-- Helper for stating what the scan computes: the value of
last_ready_future relative to an offset, given the index of the last ready
slot of the remaining pool segment if any. -/
def lastOr (o : Option Nat) (i last : Nat) : Nat :=
  match o with
  | some j => i + j
  | none => last

/-- What the scan computes, stated through firstReadyIdx and lastReadyIdx:
no ready slot leaves (none, last); otherwise the slot pointer lands on the
first ready slot and last_ready_future is the index of the last ready slot
strictly after it, if any, else the initial value. -/
def scan_spec (pool : List Bool) (i last : Nat) : Option Nat × Nat :=
  match firstReadyIdx pool with
  | none => (none, last)
  | some j => (some (i + j), lastOr (lastReadyIdx (pool.drop (j + 1))) (i + j + 1) last)

/-- The scan with the slot pointer already set only updates
last_ready_future, to the absolute index of the last ready slot of the
remaining segment. -/
theorem scan_loop_some (pool : List Bool) :
    ∀ (i f last : Nat),
      scan_loop pool i (some f) last = (some f, lastOr (lastReadyIdx pool) i last) := by
  induction pool with
  | nil => intro i f last; rfl
  | cons b rest ih =>
    intro i f last
    cases b
    · show scan_loop rest (i + 1) (some f) last = _
      rw [ih]
      cases hl : lastReadyIdx rest with
      | none => simp [lastReadyIdx, hl, lastOr]
      | some j =>
        simp only [lastReadyIdx, hl, lastOr]
        congr 1
        omega
    · show scan_loop rest (i + 1) (some f) i = _
      rw [ih]
      cases hl : lastReadyIdx rest with
      | none => simp [lastReadyIdx, hl, lastOr]
      | some j =>
        simp only [lastReadyIdx, hl, lastOr]
        congr 1
        omega

/-- The scan of the delayed send, characterised: it computes scan_spec. -/
theorem scan_loop_eq_spec (pool : List Bool) :
    ∀ (i last : Nat), scan_loop pool i none last = scan_spec pool i last := by
  induction pool with
  | nil => intro i last; rfl
  | cons b rest ih =>
    intro i last
    cases b
    · show scan_loop rest (i + 1) none last = _
      rw [ih]
      cases hf : firstReadyIdx rest with
      | none => simp [scan_spec, firstReadyIdx, hf]
      | some j =>
        simp [scan_spec, firstReadyIdx, hf, lastOr]
        have h1 : i + (j + 1) = i + 1 + j := by omega
        simp only [h1]
        exact ⟨trivial, trivial⟩
    · show scan_loop rest (i + 1) (some i) last = _
      rw [scan_loop_some]
      simp [scan_spec, firstReadyIdx, lastOr]

/-- Claim C6, counterexample.  Pool [ready, ready, pending]: the trailing
run of completed tasks is empty (the last slot is pending), so by the claim
nothing may be dropped and, with the reused slot becoming pending, the
number of pending slots would grow by one.  The code instead resizes to
last_ready_future = 1, dropping the pending slot at index 2 along with the
ready slot at index 1, and the pending count stays 1. -/
theorem C6_pending_dropped_cex :
    send_message_delayed [true, true, false] = [false]
    ∧ pendingCount [true, true, false] = 1
    ∧ pendingCount (send_message_delayed [true, true, false])
        ≠ pendingCount [true, true, false] + 1 := by
  refine ⟨rfl, rfl, by decide⟩

/-- Claim C6 (corrected): each call of the delayed send scans the pool once
and never blocks inside the scan; if no slot is completed the pool is kept
and grown by exactly one; if exactly one slot is completed the pool keeps
its length and that slot is reused; if two or more slots are completed the
pool is truncated at the index of the last completed slot — dropping that
slot and every slot after it, pending ones included — and the first
completed slot is reused for the new task. -/
theorem C6_delayed_pool (pool : List Bool) :
    (firstReadyIdx pool = none → send_message_delayed pool = pool ++ [false])
    ∧ (∀ f, firstReadyIdx pool = some f → lastReadyIdx (pool.drop (f + 1)) = none →
        send_message_delayed pool = pool.set f false)
    ∧ (∀ f k, firstReadyIdx pool = some f → lastReadyIdx (pool.drop (f + 1)) = some k →
        send_message_delayed pool = (pool.take (f + 1 + k)).set f false) := by
  refine ⟨?_, ?_, ?_⟩
  · intro hf
    unfold send_message_delayed
    rw [scan_loop_eq_spec]
    simp [scan_spec, hf]
  · intro f hf hl
    unfold send_message_delayed
    rw [scan_loop_eq_spec]
    simp [scan_spec, hf, hl, lastOr]
  · intro f k hf hl
    unfold send_message_delayed
    rw [scan_loop_eq_spec]
    simp [scan_spec, hf, hl, lastOr]

/-- Claim C6 witness: pool [pending, ready, pending, ready, ready] has its
first ready slot at 1 and its last ready slot at absolute index 4 = 1 + 1 +
2, so the call truncates to the first four slots — dropping the ready slot
at index 4 — and reuses slot 1 for the new pending task. -/
theorem C6_delayed_pool_w :
    send_message_delayed [false, true, false, true, true]
      = (([false, true, false, true, true] : List Bool).take (1 + 1 + 2)).set 1 false :=
  (C6_delayed_pool [false, true, false, true, true]).2.2 1 2 (by decide) (by decide)

/-- The worker loop processes every iteration of a trace during which
running_ stays true at the loop head: caught exceptions never end the
loop. -/
theorem run_loop_length (hasExc : Bool) :
    ∀ iters : List IterInput, (∀ it ∈ iters, it.running_at_head = true) →
      (run_loop iters hasExc).length = iters.length := by
  intro iters
  induction iters with
  | nil => intro h; rfl
  | cons it rest ih =>
    intro h
    have hh : it.running_at_head = true := h it (by simp)
    simp only [run_loop, hh, if_true, List.length_cons]
    rw [ih (fun u hu => h u (by simp [hu]))]

/-- Claim C9, counterexample.  An on_message failure (std::exception with
message "boom") reaching the catch clause after running_ has turned false —
e.g. dispose ran during the dispatch — is dropped even though on_exception
is present, because both catch clauses guard the callback with
on_exception_ && msg_manager_.running_. -/
theorem C9_exception_dropped_cex :
    iteration_report (DispatchOutcome.throwStd "boom") true false = none
    ∧ iteration_report (DispatchOutcome.throwStd "boom") true false ≠ some "boom" := by
  refine ⟨rfl, by decide⟩

/-- Claim C9 (corrected): any exception thrown by on_message or on_idle is
caught at the loop boundary and passed to on_exception when that callback is
present and the bus is still running at the catch; otherwise it is silently
dropped.  A failure that is not a std::exception is normalized to the
generic runtime error "unknown exception" first.  No exception terminates
the worker: the loop continues, exiting only through its running_ guard. -/
theorem C9_exception_handling (iters : List IterInput) (hasExc r : Bool)
    (d : DispatchOutcome) (m : String) :
    ((∀ it ∈ iters, it.running_at_head = true) →
      (run_loop iters hasExc).length = iters.length)
    ∧ iteration_report (DispatchOutcome.throwStd m) true true = some m
    ∧ iteration_report DispatchOutcome.throwUnknown true true = some "unknown exception"
    ∧ iteration_report DispatchOutcome.ok hasExc r = none
    ∧ (hasExc = false → iteration_report d hasExc r = none)
    ∧ (r = false → iteration_report d hasExc r = none) := by
  refine ⟨run_loop_length hasExc iters, rfl, rfl, rfl, ?_, ?_⟩
  · intro h
    cases d <;> simp [iteration_report, h]
  · intro h
    cases d <;> simp [iteration_report, h]

/-- Claim C9 witness: a two-iteration trace (a std::exception "a", then a
non-standard failure) is processed in full, the first failure is reported
as "a", the second normalized to "unknown exception", and the same
std::exception caught after running_ turned false is dropped. -/
theorem C9_exception_handling_w :
    (run_loop [⟨true, DispatchOutcome.throwStd "a", true⟩,
               ⟨true, DispatchOutcome.throwUnknown, true⟩] true).length = 2
    ∧ iteration_report (DispatchOutcome.throwStd "a") true true = some "a"
    ∧ iteration_report DispatchOutcome.throwUnknown true true = some "unknown exception"
    ∧ iteration_report (DispatchOutcome.throwStd "a") true false = none :=
  have h := C9_exception_handling
    [⟨true, DispatchOutcome.throwStd "a", true⟩,
     ⟨true, DispatchOutcome.throwUnknown, true⟩] true false (DispatchOutcome.throwStd "a") "a"
  ⟨h.1 (by decide), h.2.1, h.2.2.1, h.2.2.2.2.2 rfl⟩

/-- Destroying k + 1 handlers in sequence — what
message_handler_list.clear() does — leaves running_ false. -/
theorem clear_handlers_running (k : Nat) :
    ∀ s : Bus2State, (clear_handlers_effect (k + 1) s).running = false := by
  induction k with
  | zero => intro s; rfl
  | succ m ih =>
    intro s
    show (clear_handlers_effect (m + 1) (handler_dtor2 s)).running = false
    exact ih (handler_dtor2 s)

/-- Claim C10: the destructor of any single message_handler sets the owning
manager's running_ flag to false, exactly the transition dispose performs
(queues are untouched, unlike dispose's drain).  Hence clear_handlers for
one message type — and a future rebinding, which clears the previous
start_op handler — stops the worker loop of every handler of every type of
that manager, a blocked receive on any other type returns instead of
waiting, and a blocked send passes its wait predicate. -/
theorem C10_handler_dtor_stops_bus (s : Bus2State) (n : Nat) (wait : Bool) (tid : Int)
    (N L : Nat) :
    (handler_dtor2 s).running = false
    ∧ (handler_dtor2 s).running = (dispose2 s).running
    ∧ (handler_dtor2 s).queue0 = s.queue0
    ∧ (handler_dtor2 s).queue1 = s.queue1
    ∧ (clear_handlers_effect (n + 1) s).running = false
    ∧ handler_loop_continues (clear_handlers_effect (n + 1) s).running = false
    ∧ (receive_step1 (handler_dtor2 s) wait tid).isSome = true
    ∧ sendCanProceed (handler_dtor2 s).running N L = true := by
  refine ⟨rfl, rfl, rfl, rfl, clear_handlers_running n s, ?_, ?_, rfl⟩
  · show handler_loop_continues (clear_handlers_effect (n + 1) s).running = false
    rw [clear_handlers_running n s]
    rfl
  · unfold receive_step1
    cases hrec : removeFirst (message_selector tid) (handler_dtor2 s).queue1 with
    | some pr =>
      obtain ⟨a, b⟩ := pr
      rfl
    | none => simp [handler_dtor2]

end Clime
